import Mathlib

/-!
Verification of the `ts_parser` WebAssembly boundary layer
(`src/packages/ts_parser/src/lib.rs`).

The module exchanges UTF-8 text with a host across a numeric-only call
boundary: `allocate`/`deallocate` manage guest-owned byte regions in linear
memory, `ptr_to_string` decodes a region into an owned string (a byte copy),
`print_ast` parses the text with the external `oxc` parser and serializes the
syntax tree with `serde_json` (or substitutes a fixed sentinel on parse
errors), and the exported `_print_ast` packs the leaked result buffer as
`(offset <<< 32) ||| length` into a single 64-bit return value.

Modelling conventions:
- Rust `String` values are UTF-8 byte sequences, embedded as `List Nat`.
- Linear memory is `Nat → Nat` (address to byte) together with an explicit
  allocator state listing the live regions; the global allocator
  (`wee_alloc`, an external crate) is modelled at the interface the spec
  gives it (`heapAllocate`): fresh allocations are disjoint from every live
  region. The exported `allocate` of the source is embedded on top of it and
  reproduces what the source actually does: reserve, then free the
  reservation again and return the dangling pointer of an empty boxed
  slice.
- The external collaborators (`oxc` parser, `serde_json` serializer,
  `web_sys::console`) are modelled at their specified interfaces: the parser
  is an abstract function parameter, serialization goes through an explicit
  JSON value type with a serde-style pretty printer, and the console is a
  write-only list of emitted messages threaded through the functions.
-/

namespace TsParser

/-- Bytes of linear memory: address to byte value. -/
abbrev Mem := Nat → Nat

/-- Read `n` bytes starting at `off` (the copying decode step). -/
def readBytes (m : Mem) (off : Nat) : Nat → List Nat
  | 0 => []
  | n + 1 => m off :: readBytes m (off + 1) n

/-- Write the bytes `bs` starting at address `off`. -/
def writeBytes (m : Mem) (off : Nat) (bs : List Nat) : Mem :=
  fun a => if off ≤ a ∧ a - off < bs.length then bs.getD (a - off) 0 else m a

/-- An allocated region of linear memory: first byte offset and length. -/
structure Region where
  off : Nat
  len : Nat
deriving DecidableEq

/-- Two regions do not overlap. -/
def Region.disjoint (a b : Region) : Prop :=
  a.off + a.len ≤ b.off ∨ b.off + b.len ≤ a.off

instance (a b : Region) : Decidable (a.disjoint b) :=
  inferInstanceAs (Decidable (a.off + a.len ≤ b.off ∨ b.off + b.len ≤ a.off))

/-- Allocator state: the list of currently live (allocated) regions. This
models the bookkeeping of the process-wide allocator shim (`wee_alloc`,
external) at the interface the specification gives it. -/
structure AllocState where
  live : List Region
deriving DecidableEq

/-- The lowest offset past the end of every live region: a fresh allocation
is placed there, which keeps it disjoint from all live regions. -/
def freshOff (st : AllocState) : Nat :=
  st.live.foldr (fun q acc => max (q.off + q.len) acc) 0

/-- Reservation of a fresh buffer by the process-wide global allocator
(`wee_alloc`, external), modelled at the interface the spec gives it:
`size` bytes are reserved at a fresh offset, disjoint from every live
region, and the region becomes live. This is what `Vec::with_capacity`
obtains, and what backs the buffer of every `String` the module builds. -/
def heapAllocate (st : AllocState) (size : Nat) : Nat × AllocState :=
  (freshOff st, { live := { off := freshOff st, len := size } :: st.live })

/-- Function `deallocate(ptr, size)`: retake the region so its memory is freed.
Source: `unsafe fn deallocate` (`Vec::from_raw_parts(ptr, 0, size)` dropped
at end of scope). In the state model the region leaves the live list. -/
def deallocate (st : AllocState) (off size : Nat) : AllocState :=
  { live := st.live.filter (fun r => !(r.off == off && r.len == size)) }

/-- Function `allocate(size)` of the source (`fn allocate`):
`Vec::with_capacity(size)` obtains a buffer of `size` bytes from the global
allocator, but the vector has length 0, so `into_boxed_slice` discards the
excess capacity — freeing that buffer again — and `Box::into_raw` on the
resulting empty boxed slice returns its dangling pointer, the alignment of
`u8`, namely address 1. The call therefore reserves nothing: every call
returns offset 1 and leaves no new live region behind. -/
def allocate (st : AllocState) (size : Nat) : Nat × AllocState :=
  let vec := heapAllocate st size
  (1, deallocate vec.2 vec.1 size)

/-- Function `ptr_to_string(ptr, len)`: read `len` bytes at `ptr` and copy them into
a fresh owned string (`String::from` on the unchecked UTF-8 view). The
source region is neither freed nor mutated. -/
def ptr_to_string (m : Mem) (ptr len : Nat) : List Nat :=
  readBytes m ptr len

/-- Function `string_to_ptr(s)`: the raw (pointer, length) pair of an owned string
whose buffer lives at `gOff`, with the `as u32` casts of the source. -/
def string_to_ptr (gOff : Nat) (s : List Nat) : Nat × Nat :=
  (gOff % 2 ^ 32, s.length % 2 ^ 32)

/-- The packed 64-bit return value: `((ptr as u64) << 32) | len as u64`. -/
def pack (p l : Nat) : Nat := (p <<< 32) ||| l

/-- Host-side unpacking: `offset = value >> 32`, `length = value & 0xFFFFFFFF`. -/
def unpack (v : Nat) : Nat × Nat := (v >>> 32, v &&& 0xFFFFFFFF)

/-! ### Memory lemmas -/

theorem readBytes_congr (m₁ m₂ : Mem) (off n : Nat)
    (h : ∀ a, off ≤ a → a < off + n → m₁ a = m₂ a) :
    readBytes m₁ off n = readBytes m₂ off n := by
  induction n generalizing off with
  | zero => rfl
  | succ k ih =>
    simp only [readBytes, List.cons.injEq]
    exact ⟨h off (Nat.le_refl off) (by omega),
      ih (off + 1) (fun a h1 h2 => h a (by omega) (by omega))⟩

theorem readBytes_writeBytes (m : Mem) (off : Nat) (bs : List Nat) :
    readBytes (writeBytes m off bs) off bs.length = bs := by
  induction bs generalizing m off with
  | nil => rfl
  | cons b rest ih =>
    simp only [List.length_cons, readBytes, List.cons.injEq]
    refine ⟨?_, ?_⟩
    · simp [writeBytes]
    · have hcongr : readBytes (writeBytes m off (b :: rest)) (off + 1) rest.length
          = readBytes (writeBytes m (off + 1) rest) (off + 1) rest.length := by
        apply readBytes_congr
        intro a h1 h2
        simp only [writeBytes, List.length_cons]
        have hc1 : off ≤ a ∧ a - off < rest.length + 1 := by omega
        have hc2 : off + 1 ≤ a ∧ a - (off + 1) < rest.length := by omega
        rw [if_pos hc1, if_pos hc2]
        have hsucc : a - off = (a - (off + 1)) + 1 := by omega
        rw [hsucc]
        simp [List.getD]
      rw [hcongr, ih]

theorem readBytes_writeBytes_of_disjoint (m : Mem) (dst : Nat) (bs : List Nat)
    (off n : Nat) (h : off + n ≤ dst) :
    readBytes (writeBytes m dst bs) off n = readBytes m off n := by
  apply readBytes_congr
  intro a h1 h2
  simp only [writeBytes]
  have : ¬(dst ≤ a ∧ a - dst < bs.length) := by omega
  rw [if_neg this]

/-! ### Allocator lemmas -/

theorem end_le_maxEnd (rs : List Region) (r : Region) (h : r ∈ rs) :
    r.off + r.len ≤ rs.foldr (fun q acc => max (q.off + q.len) acc) 0 := by
  induction rs with
  | nil => cases h
  | cons q qs ih =>
    simp only [List.foldr]
    rcases List.mem_cons.mp h with rfl | h2
    · exact Nat.le_max_left _ _
    · exact Nat.le_trans (ih h2) (Nat.le_max_right _ _)

theorem end_le_freshOff (st : AllocState) (r : Region) (h : r ∈ st.live) :
    r.off + r.len ≤ freshOff st :=
  end_le_maxEnd st.live r h

theorem heapAllocate_disjoint_live (st : AllocState) (size : Nat) (r : Region)
    (h : r ∈ st.live) :
    Region.disjoint { off := (heapAllocate st size).1, len := size } r :=
  Or.inr (end_le_freshOff st r h)

/-! ### UTF-8 text -/

/-- The UTF-8 bytes of an ASCII Lean string literal. -/
def asciiBytes (s : String) : List Nat :=
  s.data.map Char.toNat

/-- A UTF-8 continuation byte (`0x80`–`0xBF`). -/
def isCont (b : Nat) : Bool := decide (0x80 ≤ b ∧ b ≤ 0xBF)

/-- Validity of a byte sequence as UTF-8 (the property the unchecked decode
path of `ptr_to_string` assumes but does not check). -/
def utf8Valid : List Nat → Bool
  | [] => true
  | b :: rest =>
    if b ≤ 0x7F then utf8Valid rest
    else if 0xC2 ≤ b ∧ b ≤ 0xDF then
      match rest with
      | c :: rest2 => isCont c && utf8Valid rest2
      | [] => false
    else if b = 0xE0 then
      match rest with
      | c :: d :: rest3 =>
        decide (0xA0 ≤ c ∧ c ≤ 0xBF) && isCont d && utf8Valid rest3
      | _ => false
    else if (0xE1 ≤ b ∧ b ≤ 0xEC) ∨ (0xEE ≤ b ∧ b ≤ 0xEF) then
      match rest with
      | c :: d :: rest3 => isCont c && isCont d && utf8Valid rest3
      | _ => false
    else if b = 0xED then
      match rest with
      | c :: d :: rest3 =>
        decide (0x80 ≤ c ∧ c ≤ 0x9F) && isCont d && utf8Valid rest3
      | _ => false
    else if b = 0xF0 then
      match rest with
      | c :: d :: e :: rest4 =>
        decide (0x90 ≤ c ∧ c ≤ 0xBF) && isCont d && isCont e && utf8Valid rest4
      | _ => false
    else if 0xF1 ≤ b ∧ b ≤ 0xF3 then
      match rest with
      | c :: d :: e :: rest4 => isCont c && isCont d && isCont e && utf8Valid rest4
      | _ => false
    else if b = 0xF4 then
      match rest with
      | c :: d :: e :: rest4 =>
        decide (0x80 ≤ c ∧ c ≤ 0x8F) && isCont d && isCont e && utf8Valid rest4
      | _ => false
    else false

/-! ### JSON serialization (the `serde_json` collaborator, modelled at its
interface: pretty printing with two-space indent, as `to_string_pretty`) -/

/-- A JSON value; keys and string contents are UTF-8 byte sequences. -/
inductive Json where
  | null : Json
  | bool : Bool → Json
  | num : Int → Json
  | str : List Nat → Json
  | arr : List Json → Json
  | obj : List (List Nat × Json) → Json

/-- Decimal digits of a positive number, most significant first (ASCII). -/
def natDigitsAux : Nat → List Nat → List Nat
  | 0, acc => acc
  | n + 1, acc => natDigitsAux ((n + 1) / 10) ((48 + (n + 1) % 10) :: acc)

/-- ASCII decimal rendering of a natural number. -/
def natToBytes (n : Nat) : List Nat :=
  if n = 0 then [48] else natDigitsAux n []

/-- ASCII decimal rendering of an integer (minus sign byte 45). -/
def intToBytes : Int → List Nat
  | Int.ofNat n => natToBytes n
  | Int.negSucc n => 45 :: natToBytes (n + 1)

/-- Indentation of `ind` spaces (byte 32). -/
def padding : Nat → List Nat
  | 0 => []
  | n + 1 => 32 :: padding n

/-- A JSON string literal: quote (34), contents, quote. -/
def quoteBytes (s : List Nat) : List Nat := 34 :: (s ++ [34])

mutual

/-- Serde-style pretty printing of a JSON value at indentation `ind`:
objects and arrays open with a newline, items are indented two further
spaces, and the closing bracket returns to the enclosing indentation. -/
def render : Nat → Json → List Nat
  | _, Json.null => asciiBytes "null"
  | _, Json.bool true => asciiBytes "true"
  | _, Json.bool false => asciiBytes "false"
  | _, Json.num n => intToBytes n
  | _, Json.str s => quoteBytes s
  | _, Json.arr [] => asciiBytes "[]"
  | ind, Json.arr (x :: xs) =>
    91 :: 10 :: (renderItems (ind + 2) x xs ++ 10 :: (padding ind ++ [93]))
  | _, Json.obj [] => [123, 125]
  | ind, Json.obj (f :: fs) =>
    123 :: 10 :: (renderFields (ind + 2) f fs ++ 10 :: (padding ind ++ [125]))
termination_by ind j => sizeOf j
decreasing_by all_goals (simp_wf; try omega)

/-- The comma-and-newline separated items of a nonempty array. -/
def renderItems : Nat → Json → List Json → List Nat
  | ind, x, [] => padding ind ++ render ind x
  | ind, x, y :: ys =>
    padding ind ++ render ind x ++ 44 :: 10 :: renderItems ind y ys
termination_by ind x xs => 1 + sizeOf x + sizeOf xs
decreasing_by all_goals (simp_wf; try omega)

/-- The comma-and-newline separated `"key": value` fields of a nonempty
object (colon 58, space 32). -/
def renderFields : Nat → (List Nat × Json) → List (List Nat × Json) → List Nat
  | ind, (k, v), [] => padding ind ++ quoteBytes k ++ 58 :: 32 :: render ind v
  | ind, (k, v), g :: gs =>
    padding ind ++ quoteBytes k ++ 58 :: 32 :: render ind v
      ++ 44 :: 10 :: renderFields ind g gs
termination_by ind f fs => 1 + sizeOf f + sizeOf fs
decreasing_by all_goals (simp_wf; try omega)

end

/-! ### The external parser interface (`oxc`, modelled at its interface) -/

/-- The grammar dialects the source-type selection distinguishes. -/
inductive Language where
  | javascript : Language
  | typescript : Language
deriving DecidableEq

/-- The script-dialect identity handed to the parser (`oxc_span::SourceType`,
modelled by the field the entry code depends on). -/
structure SourceType where
  language : Language
deriving DecidableEq

/-- The extension of a path: the characters after the last dot. -/
def extOf (path : String) : List Char :=
  (path.data.reverse.takeWhile (fun c => c != '.')).reverse

/-- Function `SourceType::from_path`: select the grammar dialect from the file
extension; unknown extensions fail. -/
def SourceType.from_path (path : String) : Option SourceType :=
  if extOf path = "ts".data then some { language := Language.typescript }
  else if extOf path = "js".data then some { language := Language.javascript }
  else none

/-- The constant path naming the synthetic dialect: `"template.ts"`. -/
def FILE_NAME_OF_TYPE : String := "template.ts"

/-- The source type `print_ast` always parses with: the `.unwrap()` of
`SourceType::from_path(FILE_NAME_OF_TYPE)` (the fallback default of the
model is never reached because the lookup succeeds). -/
def source_type_used : SourceType :=
  (SourceType.from_path FILE_NAME_OF_TYPE).getD { language := Language.javascript }

/-- The fixed sentinel payload returned on parse errors. -/
def sentinel : List Nat := asciiBytes "\x7b\"hey\": \"there\"\x7d"

/-- The fixed console notice emitted on parse errors. -/
def errorNotice : List Nat :=
  asciiBytes "A TypeScript error occured in your Astro component"

/-- Function `print_ast(source_text)`: parse the text with the external parser at the
fixed source type; on success pretty-print the JSON serialization of the
program and log it, on failure log a fixed notice and return the sentinel.
The external parser is the parameter `parse` (returning the program and the
error list of `ParserReturn`), the serde serialization of the program is the
parameter `to_json`, and the console is threaded as a write-only list. -/
def print_ast {Program : Type}
    (parse : SourceType → List Nat → Program × List (List Nat))
    (to_json : Program → Json)
    (source_text : List Nat) (console : List (List Nat)) :
    List Nat × List (List Nat) :=
  let ret := parse source_type_used source_text
  if ret.2.isEmpty then
    let json_string := render 0 (to_json ret.1)
    (json_string, console ++ [json_string])
  else
    (sentinel, console ++ [errorNotice])

/-- The observable outcome of the exported entry point: the packed 64-bit
return value, the linear memory, the allocator state and the console. -/
structure RunOut where
  packed : Nat
  mem : Mem
  st : AllocState
  console : List (List Nat)

/-- The exported entry point (export name `"print_ast"`): decode the input
region, run `print_ast`, leak the result buffer (`mem::forget`: the region
stays live), and return its packed (pointer, length). The buffer of the
result string is materialized by the global allocator at a fresh offset. -/
def _print_ast {Program : Type}
    (parse : SourceType → List Nat → Program × List (List Nat))
    (to_json : Program → Json)
    (m : Mem) (st : AllocState) (console : List (List Nat))
    (ptr len : Nat) : RunOut :=
  let source_text := ptr_to_string m ptr len
  let pr := print_ast parse to_json source_text console
  let g := pr.1
  let galloc := heapAllocate st g.length
  let pl := string_to_ptr galloc.1 g
  { packed := pack pl.1 pl.2
    mem := writeBytes m galloc.1 g
    st := galloc.2
    console := pr.2 }

/-! ### Packing lemmas -/

theorem pack_eq_mul_add (p l : Nat) (hl : l < 2 ^ 32) :
    pack p l = 2 ^ 32 * p + l := by
  unfold pack
  rw [Nat.shiftLeft_eq, Nat.mul_comm p (2 ^ 32), ← Nat.mul_add_lt_is_or hl p]

theorem pack_shiftRight (p l : Nat) (hl : l < 2 ^ 32) :
    pack p l >>> 32 = p := by
  rw [pack_eq_mul_add p l hl, Nat.shiftRight_eq_div_pow,
    Nat.mul_add_div (by norm_num), Nat.div_eq_of_lt hl, Nat.add_zero]

theorem pack_land (p l : Nat) (hl : l < 2 ^ 32) :
    pack p l &&& 0xFFFFFFFF = l := by
  have hmask : (0xFFFFFFFF : Nat) = 2 ^ 32 - 1 := by norm_num
  rw [pack_eq_mul_add p l hl, hmask, Nat.and_pow_two_sub_one_eq_mod,
    Nat.mul_add_mod, Nat.mod_eq_of_lt hl]

/-! ### Rendering lemmas -/

theorem sentinel_eq :
    sentinel
      = [123, 34, 104, 101, 121, 34, 58, 32, 34, 116, 104, 101, 114, 101, 34, 125] := by
  decide

theorem acc_length_le_natDigitsAux (n : Nat) :
    ∀ acc : List Nat, acc.length ≤ (natDigitsAux n acc).length := by
  induction n using Nat.strong_induction_on with
  | _ n ih =>
    intro acc
    match n with
    | 0 => simp [natDigitsAux]
    | k + 1 =>
      have hlt : (k + 1) / 10 < k + 1 := Nat.div_lt_self (by omega) (by omega)
      have hstep : natDigitsAux (k + 1) acc
          = natDigitsAux ((k + 1) / 10) ((48 + (k + 1) % 10) :: acc) := by
        simp [natDigitsAux]
      rw [hstep]
      exact Nat.le_trans (by simp) (ih _ hlt _)

theorem natToBytes_ne_nil (n : Nat) : natToBytes n ≠ [] := by
  unfold natToBytes
  by_cases h : n = 0
  · simp [h]
  · rw [if_neg h]
    match n, h with
    | k + 1, _ =>
      intro hnil
      have hstep : natDigitsAux (k + 1) ([] : List Nat)
          = natDigitsAux ((k + 1) / 10) ((48 + (k + 1) % 10) :: []) := by
        simp [natDigitsAux]
      have hlen := acc_length_le_natDigitsAux ((k + 1) / 10)
        ((48 + (k + 1) % 10) :: [])
      rw [hstep] at hnil
      rw [hnil] at hlen
      simp at hlen

theorem intToBytes_ne_nil (n : Int) : intToBytes n ≠ [] := by
  cases n with
  | ofNat k => exact natToBytes_ne_nil k
  | negSucc k => simp [intToBytes]

theorem render_ne_nil (ind : Nat) (j : Json) : render ind j ≠ [] := by
  cases j with
  | null => simp only [render]; decide
  | bool b => cases b <;> (simp only [render]; decide)
  | num n => simp only [render]; exact intToBytes_ne_nil n
  | str s => simp [render, quoteBytes]
  | arr xs =>
    cases xs with
    | nil => simp only [render]; decide
    | cons x xs2 => simp [render]
  | obj fs =>
    cases fs with
    | nil => simp only [render]; decide
    | cons f fs2 =>
      obtain ⟨k, v⟩ := f
      simp [render]

theorem render_obj_ne_sentinel (fs : List (List Nat × Json)) :
    render 0 (Json.obj fs) ≠ sentinel := by
  cases fs with
  | nil =>
    rw [sentinel_eq]
    simp only [render]
    decide
  | cons f fs2 =>
    obtain ⟨k, v⟩ := f
    rw [sentinel_eq]
    simp [render]

/-! ### Entry lemmas -/

theorem print_ast_fst_ne_nil {Program : Type}
    (parse : SourceType → List Nat → Program × List (List Nat))
    (to_json : Program → Json) (src : List Nat) (console : List (List Nat)) :
    (print_ast parse to_json src console).1 ≠ [] := by
  cases hl : (parse source_type_used src).2 with
  | nil =>
    simpa [print_ast, hl] using
      render_ne_nil 0 (to_json (parse source_type_used src).1)
  | cons d ds => simp [print_ast, hl, sentinel_eq]

/-! ### Concrete instantiation of the external collaborators, used to
evaluate the theorems on concrete inputs -/

/-- A concrete stand-in for the external parser: it accepts exactly the
source text of the success scenario and reports one error on everything
else. -/
def mockParse : SourceType → List Nat → Unit × List (List Nat) :=
  fun _ b =>
    ((), if b = asciiBytes "const x = 1;" then [] else [asciiBytes "unexpected token"])

/-- A concrete stand-in for the serde serialization of the program: a
structured object with a single field. -/
def mockToJson : Unit → Json :=
  fun _ => Json.obj [(asciiBytes "type", Json.str (asciiBytes "Program"))]

/-! ### Claim theorems -/

/-- C1: the claim fails on the code. The source `allocate` builds a
length-0 vector, `into_boxed_slice` discards its capacity — freeing the
buffer it just reserved — and `Box::into_raw` returns the dangling pointer
1, so nothing stays reserved and every call returns the same offset. At the
spec scenario allocate A(10), allocate B(20), deallocate A, allocate C(10),
all three calls return offset 1, the live set stays empty (nothing is
reserved), and the region of C overlaps the region of B — contradicting the
claimed no-aliasing guarantee and the source comment that the memory is
leaked to the caller. -/
theorem allocate_dangling_c_aliases_b :
    (allocate { live := [] } 10).1 = 1 ∧
      (allocate { live := [] } 10).2.live = [] ∧
      (allocate (allocate { live := [] } 10).2 20).1 = 1 ∧
      (allocate (allocate { live := [] } 10).2 20).2.live = [] ∧
      (allocate (deallocate
          (allocate (allocate { live := [] } 10).2 20).2
          (allocate { live := [] } 10).1 10) 10).1 = 1 ∧
      ¬ Region.disjoint
        { off := (allocate (deallocate
            (allocate (allocate { live := [] } 10).2 20).2
            (allocate { live := [] } 10).1 10) 10).1, len := 10 }
        { off := (allocate (allocate { live := [] } 10).2 20).1, len := 20 } := by
  refine ⟨?_, ?_, ?_, ?_, ?_, ?_⟩ <;> decide

/-- C2: for every input whose parse reports errors, the payload produced by
`print_ast` is exactly the fixed sentinel text; no diagnostic detail appears
in the result and no error is propagated to the caller. -/
theorem print_ast_error_sentinel {Program : Type}
    (parse : SourceType → List Nat → Program × List (List Nat))
    (to_json : Program → Json) (src : List Nat) (console : List (List Nat))
    (h : (parse source_type_used src).2 ≠ []) :
    (print_ast parse to_json src console).1 = sentinel := by
  cases hl : (parse source_type_used src).2 with
  | nil => exact absurd hl h
  | cons d ds => simp [print_ast, hl]

/-- Witness for C2 at the failure scenario source text. -/
theorem print_ast_error_sentinel_witness :
    (mockParse source_type_used (asciiBytes "const x = ;")).2 ≠ [] ∧
      (print_ast mockParse mockToJson (asciiBytes "const x = ;") []).1 = sentinel :=
  ⟨by decide,
    print_ast_error_sentinel mockParse mockToJson (asciiBytes "const x = ;") []
      (by decide)⟩

/-- C3: for 32-bit values `p` and `l`, the packed return value equals
`(p <<< 32) ||| l = p * 2 ^ 32 + l`, and host unpacking with
`offset = v >>> 32`, `length = v &&& 0xFFFFFFFF` recovers exactly `(p, l)`;
concretely `pack 4 10 = 17179869194` and `unpack 17179869194 = (4, 10)`. -/
theorem pack_unpack_inverse :
    (∀ p l : Nat, p < 2 ^ 32 → l < 2 ^ 32 →
      pack p l = p * 2 ^ 32 + l ∧ unpack (pack p l) = (p, l)) ∧
    pack 4 10 = 17179869194 ∧ unpack 17179869194 = (4, 10) := by
  refine ⟨fun p l hp hl => ⟨?_, ?_⟩, by decide, by decide⟩
  · rw [pack_eq_mul_add p l hl, Nat.mul_comm]
  · unfold unpack
    rw [pack_shiftRight p l hl, pack_land p l hl]

/-- Witness for C3 at the concrete pair of the spec. -/
theorem pack_unpack_inverse_witness :
    (4 : Nat) < 2 ^ 32 ∧ (10 : Nat) < 2 ^ 32 ∧ unpack (pack 4 10) = (4, 10) :=
  ⟨by decide, by decide, (pack_unpack_inverse.1 4 10 (by decide) (by decide)).2⟩

/-- C4: for every input whose parse reports no errors, the payload of
`print_ast` is the pretty-printed JSON serialization of the returned
program — a structured object — and is not the fixed sentinel payload. -/
theorem print_ast_success_serialization {Program : Type}
    (parse : SourceType → List Nat → Program × List (List Nat))
    (to_json : Program → Json) (src : List Nat) (console : List (List Nat))
    (flds : List (List Nat × Json))
    (hok : (parse source_type_used src).2 = [])
    (hobj : to_json (parse source_type_used src).1 = Json.obj flds) :
    (print_ast parse to_json src console).1
        = render 0 (to_json (parse source_type_used src).1) ∧
      (print_ast parse to_json src console).1 ≠ sentinel := by
  have h1 : (print_ast parse to_json src console).1
      = render 0 (to_json (parse source_type_used src).1) := by
    simp [print_ast, hok]
  refine ⟨h1, ?_⟩
  rw [h1, hobj]
  exact render_obj_ne_sentinel flds

/-- Witness for C4 at the success scenario source text. -/
theorem print_ast_success_serialization_witness :
    (mockParse source_type_used (asciiBytes "const x = 1;")).2 = [] ∧
      (print_ast mockParse mockToJson (asciiBytes "const x = 1;") []).1 ≠ sentinel :=
  ⟨by decide,
    (print_ast_success_serialization mockParse mockToJson (asciiBytes "const x = 1;")
      [] [(asciiBytes "type", Json.str (asciiBytes "Program"))] (by decide) rfl).2⟩

/-- C5: the entry operation decodes the input region by copying; after the
run the bytes of the input region are unchanged and the region is still
live — the operation never frees it, and the only reclamation path is the
host calling `deallocate` on it (which does remove it). -/
theorem run_preserves_input {Program : Type}
    (parse : SourceType → List Nat → Program × List (List Nat))
    (to_json : Program → Json) (m : Mem) (st : AllocState)
    (console : List (List Nat)) (ptr len : Nat)
    (h : { off := ptr, len := len } ∈ st.live) :
    readBytes (_print_ast parse to_json m st console ptr len).mem ptr len
        = readBytes m ptr len ∧
      { off := ptr, len := len }
        ∈ (_print_ast parse to_json m st console ptr len).st.live ∧
      { off := ptr, len := len }
        ∉ (deallocate (_print_ast parse to_json m st console ptr len).st ptr len).live := by
  have hle : ptr + len ≤ freshOff st :=
    end_le_freshOff st { off := ptr, len := len } h
  refine ⟨?_, ?_, ?_⟩
  · simp only [_print_ast, heapAllocate]
    exact readBytes_writeBytes_of_disjoint m (freshOff st) _ ptr len hle
  · simp only [_print_ast, heapAllocate]
    exact List.mem_cons_of_mem _ h
  · intro hmem
    have := (List.mem_filter.mp hmem).2
    simp at this

/-- Witness for C5 at a concrete live input region. -/
theorem run_preserves_input_witness :
    ({ off := 0, len := 4 } : Region) ∈ (AllocState.mk [{ off := 0, len := 4 }]).live ∧
      readBytes
        (_print_ast mockParse mockToJson (fun _ => 0)
          { live := [{ off := 0, len := 4 }] } [] 0 4).mem 0 4
        = readBytes (fun _ => 0) 0 4 :=
  ⟨by decide,
    (run_preserves_input mockParse mockToJson (fun _ => 0)
      { live := [{ off := 0, len := 4 }] } [] 0 4 (by decide)).1⟩

/-- C6: before returning, the entry operation leaks the storage of the
result string (the region stays live, as `mem::forget` transfers ownership
to the caller) and the returned 64-bit value packs exactly that storage
offset and length: unpacking the return value recovers them, and the bytes
there hold the result payload, readable until the host deallocates them. -/
theorem run_leaks_packed_result {Program : Type}
    (parse : SourceType → List Nat → Program × List (List Nat))
    (to_json : Program → Json) (m : Mem) (st : AllocState)
    (console : List (List Nat)) (ptr len : Nat)
    (hfit : freshOff st
        + (print_ast parse to_json (ptr_to_string m ptr len) console).1.length
      < 2 ^ 32) :
    (_print_ast parse to_json m st console ptr len).packed >>> 32 = freshOff st ∧
      (_print_ast parse to_json m st console ptr len).packed &&& 0xFFFFFFFF
          = (print_ast parse to_json (ptr_to_string m ptr len) console).1.length ∧
      readBytes (_print_ast parse to_json m st console ptr len).mem (freshOff st)
          (print_ast parse to_json (ptr_to_string m ptr len) console).1.length
        = (print_ast parse to_json (ptr_to_string m ptr len) console).1 ∧
      { off := freshOff st,
        len := (print_ast parse to_json (ptr_to_string m ptr len) console).1.length }
        ∈ (_print_ast parse to_json m st console ptr len).st.live := by
  have hoff : freshOff st < 2 ^ 32 := by omega
  have hlen : (print_ast parse to_json (ptr_to_string m ptr len) console).1.length
      < 2 ^ 32 := by omega
  have hmod1 : freshOff st % 2 ^ 32 = freshOff st := Nat.mod_eq_of_lt hoff
  have hmod2 : (print_ast parse to_json (ptr_to_string m ptr len) console).1.length % 2 ^ 32
      = (print_ast parse to_json (ptr_to_string m ptr len) console).1.length :=
    Nat.mod_eq_of_lt hlen
  refine ⟨?_, ?_, ?_, ?_⟩
  · simp only [_print_ast, heapAllocate, string_to_ptr, hmod1, hmod2]
    exact pack_shiftRight _ _ hlen
  · simp only [_print_ast, heapAllocate, string_to_ptr, hmod1, hmod2]
    exact pack_land _ _ hlen
  · simp only [_print_ast, heapAllocate]
    exact readBytes_writeBytes m (freshOff st) _
  · simp only [_print_ast, heapAllocate]
    exact List.mem_cons_self _ _

/-- Witness for C6 at a concrete state (empty input region, zeroed memory). -/
theorem run_leaks_packed_result_witness :
    freshOff { live := [] }
        + (print_ast mockParse mockToJson (ptr_to_string (fun _ => 0) 0 0) []).1.length
      < 2 ^ 32 ∧
      (_print_ast mockParse mockToJson (fun _ => 0) { live := [] } [] 0 0).packed >>> 32
        = freshOff { live := [] } :=
  ⟨by decide,
    (run_leaks_packed_result mockParse mockToJson (fun _ => 0) { live := [] } [] 0 0
      (by decide)).1⟩

/-- C7: round trip — for any valid UTF-8 text, allocating a region of its
length, writing its bytes at the returned offset and decoding that region
with `ptr_to_string` yields an owned text value equal to the original. -/
theorem decode_write_round_trip (st : AllocState) (m : Mem) (bs : List Nat)
    (h : utf8Valid bs = true) :
    ptr_to_string (writeBytes m (allocate st bs.length).1 bs)
      (allocate st bs.length).1 bs.length = bs :=
  readBytes_writeBytes m (allocate st bs.length).1 bs

/-- Witness for C7 at the concrete text "hi". -/
theorem decode_write_round_trip_witness :
    utf8Valid (asciiBytes "hi") = true ∧
      ptr_to_string
        (writeBytes (fun _ => 0) (allocate { live := [] } (asciiBytes "hi").length).1
          (asciiBytes "hi"))
        (allocate { live := [] } (asciiBytes "hi").length).1
        (asciiBytes "hi").length = asciiBytes "hi" :=
  ⟨by decide,
    decode_write_round_trip { live := [] } (fun _ => 0) (asciiBytes "hi") (by decide)⟩

/-- C8: the dialect identity handed to the external parser is the fixed one
derived from the constant path `"template.ts"` — TypeScript — and the result
of `print_ast` depends on the parser only through its behavior at that fixed
source type, independent of the input content. -/
theorem parse_fixed_source_type :
    source_type_used = { language := Language.typescript } ∧
      SourceType.from_path FILE_NAME_OF_TYPE
          = some { language := Language.typescript } ∧
      ∀ (Program : Type)
        (parse1 parse2 : SourceType → List Nat → Program × List (List Nat))
        (to_json : Program → Json) (src : List Nat) (console : List (List Nat)),
        (∀ t, parse1 source_type_used t = parse2 source_type_used t) →
        print_ast parse1 to_json src console = print_ast parse2 to_json src console := by
  refine ⟨by decide, by decide, ?_⟩
  intro Program parse1 parse2 to_json src console hagree
  simp [print_ast, hagree src]

/-- Witness for C8 with two concrete parsers agreeing at the fixed type. -/
theorem parse_fixed_source_type_witness :
    print_ast mockParse mockToJson (asciiBytes "let y = 2;") []
        = print_ast mockParse mockToJson (asciiBytes "let y = 2;") [] :=
  parse_fixed_source_type.2.2 Unit mockParse mockParse mockToJson
    (asciiBytes "let y = 2;") [] (fun _ => rfl)

/-- C9: determinism and console non-interference — the payload of
`print_ast` is a function of the input bytes alone: for equal inputs the
returned result text is identical, whatever the prior console state. -/
theorem print_ast_deterministic {Program : Type}
    (parse : SourceType → List Nat → Program × List (List Nat))
    (to_json : Program → Json) (s t : List Nat)
    (c1 c2 : List (List Nat)) (h : s = t) :
    (print_ast parse to_json s c1).1 = (print_ast parse to_json t c2).1 := by
  subst h
  by_cases hc : (parse source_type_used s).2.isEmpty <;> simp [print_ast, hc]

/-- Witness for C9 at a concrete input and two different console states. -/
theorem print_ast_deterministic_witness :
    (print_ast mockParse mockToJson (asciiBytes "abc") []).1
        = (print_ast mockParse mockToJson (asciiBytes "abc") [asciiBytes "prior"]).1 :=
  print_ast_deterministic mockParse mockToJson (asciiBytes "abc") (asciiBytes "abc")
    [] [asciiBytes "prior"] rfl

/-- C10: the length field (low 32 bits) of the returned packed value is
strictly positive — the result payload is never empty, being either a
non-empty pretty-printed JSON serialization or the 16-byte sentinel. -/
theorem run_length_positive {Program : Type}
    (parse : SourceType → List Nat → Program × List (List Nat))
    (to_json : Program → Json) (m : Mem) (st : AllocState)
    (console : List (List Nat)) (ptr len : Nat)
    (hlen : (print_ast parse to_json (ptr_to_string m ptr len) console).1.length
      < 2 ^ 32) :
    sentinel.length = 16 ∧
      0 < (_print_ast parse to_json m st console ptr len).packed &&& 0xFFFFFFFF := by
  have hmod : (print_ast parse to_json (ptr_to_string m ptr len) console).1.length % 2 ^ 32
      = (print_ast parse to_json (ptr_to_string m ptr len) console).1.length :=
    Nat.mod_eq_of_lt hlen
  refine ⟨by decide, ?_⟩
  have hland : (_print_ast parse to_json m st console ptr len).packed &&& 0xFFFFFFFF
      = (print_ast parse to_json (ptr_to_string m ptr len) console).1.length := by
    simp only [_print_ast, string_to_ptr, hmod]
    exact pack_land _ _ hlen
  rw [hland]
  have hne := print_ast_fst_ne_nil parse to_json (ptr_to_string m ptr len) console
  cases hl : (print_ast parse to_json (ptr_to_string m ptr len) console).1 with
  | nil => exact absurd hl hne
  | cons b bs => simp [hl]

/-- Witness for C10 at a concrete state. -/
theorem run_length_positive_witness :
    (print_ast mockParse mockToJson (ptr_to_string (fun _ => 0) 0 0) []).1.length
      < 2 ^ 32 ∧
      0 < (_print_ast mockParse mockToJson (fun _ => 0) { live := [] } [] 0 0).packed
        &&& 0xFFFFFFFF :=
  ⟨by decide,
    (run_length_positive mockParse mockToJson (fun _ => 0) { live := [] } [] 0 0
      (by decide)).2⟩

end TsParser
